import Mathlib

/-!
Shallow embedding of `action.py` (arduino-library-deploy), a GitHub-Action
release orchestrator.  Pure pieces (semantic-version parsing and comparison,
string utilities) are embedded as Lean functions; the effectful pieces
(environment reads, filesystem test, linter subprocess, HTTP calls, process
exit) are embedded as functions over an explicit `Env`/`World` record that
return an event trace together with a three-way process result
(`ok` = normal return, `exited n` = `sys.exit(n)`, `uncaught` = an uncaught
Python exception such as `requests.Response.raise_for_status` or a
`semver` parse error raised outside a `try`).
-/

deriving instance DecidableEq for Except

namespace Action

/-! ## Semantic versions

The script validates versions through the `semver` Python package
(`semver.VersionInfo.parse` and rich comparison).  That package implements the
semver.org grammar and precedence rules: `major.minor.patch` numeric
identifiers without leading zeros, an optional dot-separated pre-release list
(alphanumeric/hyphen identifiers, numeric ones without leading zeros), an
optional build part ignored by comparison; precedence compares the numeric
triple, then orders any pre-release before the plain release and compares
pre-release identifier lists pointwise (numeric identifiers numerically and
below alphanumeric ones, alphanumeric ones in ASCII order, a shorter list of
otherwise-equal identifiers first). -/

/-- Split a character list on every occurrence of the separator. -/
def splitListOn (sep : Char) : List Char → List (List Char)
  | [] => [[]]
  | c :: cs =>
    if c = sep then [] :: splitListOn sep cs
    else
      match splitListOn sep cs with
      | [] => [[c]]
      | r :: rs => (c :: r) :: rs

/-- Split at the first occurrence of the separator: the part before it and,
when the separator occurs, the part after it. -/
def breakOn (sep : Char) : List Char → List Char × Option (List Char)
  | [] => ([], none)
  | c :: cs =>
    if c = sep then ([], some cs)
    else
      let r := breakOn sep cs
      (c :: r.1, r.2)

/-- Value of a digit list read in base 10. -/
def digitsToNat (cs : List Char) : Nat :=
  cs.foldl (fun acc c => acc * 10 + (c.toNat - 48)) 0

/-- A numeric identifier: nonempty digits, no leading zero unless "0". -/
def isNumIdent (cs : List Char) : Bool :=
  !cs.isEmpty && cs.all Char.isDigit &&
    (decide (cs.length = 1) || !(cs.headD ' ' = '0'))

/-- A character allowed in pre-release and build identifiers. -/
def isIdentChar (c : Char) : Bool :=
  c.isAlphanum || c = '-'

/-- A valid pre-release identifier: nonempty, alphanumeric/hyphen characters,
and when purely numeric it must carry no leading zero. -/
def isPreIdent (cs : List Char) : Bool :=
  !cs.isEmpty && cs.all isIdentChar &&
    (!cs.all Char.isDigit || isNumIdent cs)

/-- A valid build identifier: nonempty, alphanumeric/hyphen characters. -/
def isBuildIdent (cs : List Char) : Bool :=
  !cs.isEmpty && cs.all isIdentChar

/-- A parsed semantic version (`semver.VersionInfo`). -/
structure SemVer where
  major : Nat
  minor : Nat
  patch : Nat
  prerelease : Option (List (List Char))
  build : Option (List (List Char))
deriving DecidableEq, Repr

/-- Parse a numeric identifier. -/
def parseNumIdent (cs : List Char) : Option Nat :=
  if isNumIdent cs then some (digitsToNat cs) else none

/-- Parse the optional pre-release part into its identifier list. -/
def parsePre : Option (List Char) → Option (Option (List (List Char)))
  | none => some none
  | some p =>
    let ids := splitListOn '.' p
    if ids.all isPreIdent then some (some ids) else none

/-- Parse the optional build part into its identifier list. -/
def parseBuild : Option (List Char) → Option (Option (List (List Char)))
  | none => some none
  | some b =>
    let ids := splitListOn '.' b
    if ids.all isBuildIdent then some (some ids) else none

/-- Parse a semantic-version character list (`semver.VersionInfo.parse`):
`major.minor.patch` with optional `-prerelease` and `+build` parts. -/
def parseVersionChars (cs : List Char) : Option SemVer :=
  let bp := breakOn '+' cs
  let pp := breakOn '-' bp.1
  match splitListOn '.' pp.1 with
  | [ma, mi, pa] =>
    match parseNumIdent ma, parseNumIdent mi, parseNumIdent pa,
        parsePre pp.2, parseBuild bp.2 with
    | some major, some minor, some patch, some pre, some build =>
      some ⟨major, minor, patch, pre, build⟩
    | _, _, _, _, _ => none
  | _ => none

/-- Parse a semantic-version string. -/
def parseVersion (s : String) : Option SemVer :=
  parseVersionChars s.toList

/-- ASCII-lexicographic comparison of character lists. -/
def lexCompareChars : List Char → List Char → Ordering
  | [], [] => .eq
  | [], _ :: _ => .lt
  | _ :: _, [] => .gt
  | a :: as, b :: bs =>
    match compare a b with
    | .eq => lexCompareChars as bs
    | o => o

/-- Compare two pre-release identifiers: numeric below alphanumeric, numeric
ones numerically, alphanumeric ones in ASCII order. -/
def compareIdent (a b : List Char) : Ordering :=
  if a.all Char.isDigit then
    if b.all Char.isDigit then compare (digitsToNat a) (digitsToNat b)
    else .lt
  else
    if b.all Char.isDigit then .gt
    else lexCompareChars a b

/-- Compare two pre-release identifier lists pointwise; a strict prefix of an
otherwise-equal list orders first. -/
def comparePreList : List (List Char) → List (List Char) → Ordering
  | [], [] => .eq
  | [], _ :: _ => .lt
  | _ :: _, [] => .gt
  | a :: as, b :: bs =>
    match compareIdent a b with
    | .eq => comparePreList as bs
    | o => o

/-- Semver precedence comparison (the `semver` package's rich comparison):
numeric triple first, then a pre-release orders before the plain release,
then the pre-release identifier lists; build metadata is ignored. -/
def SemVer.compareV (a b : SemVer) : Ordering :=
  match compare a.major b.major with
  | .eq =>
    match compare a.minor b.minor with
    | .eq =>
      match compare a.patch b.patch with
      | .eq =>
        match a.prerelease, b.prerelease with
        | none, none => .eq
        | none, some _ => .gt
        | some _, none => .lt
        | some x, some y => comparePreList x y
      | o => o
    | o => o
  | o => o

/-! ## Pure string helpers of the script -/

/-- Python `s.lstrip('v')`: remove every leading `'v'` character. -/
def lstripV (s : String) : String :=
  ⟨s.toList.dropWhile fun c => c = 'v'⟩

/-- Python `pat in s`: substring containment on character lists. -/
def listContains (pat : List Char) : List Char → Bool
  | [] => pat.isPrefixOf ([] : List Char)
  | c :: cs => pat.isPrefixOf (c :: cs) || listContains pat cs

/-- Python `pat in s` on strings. -/
def strContains (s pat : String) : Bool :=
  listContains pat.toList s.toList

/-- Python `s.startswith(pre)`. -/
def strStartsWith (s pre : String) : Bool :=
  pre.toList.isPrefixOf s.toList

/-- Left-to-right non-overlapping replacement, with a structural fuel (the
input's length is enough fuel, every step consuming at least one
character). -/
def replaceCharsAux (pat repl : List Char) : Nat → List Char → List Char
  | _, [] => []
  | 0, l => l
  | fuel + 1, c :: cs =>
    if !pat.isEmpty && pat.isPrefixOf (c :: cs) then
      repl ++ replaceCharsAux pat repl fuel (cs.drop (pat.length - 1))
    else c :: replaceCharsAux pat repl fuel cs

/-- Python `s.replace(pat, repl)`: replace every occurrence. -/
def strReplace (s pat repl : String) : String :=
  ⟨replaceCharsAux pat.toList repl.toList s.toList.length s.toList⟩

/-! ## Process-level model -/

/-- Typed outcome of the version comparator (`validate_version` before its
`sys.exit`): the script prints a distinct diagnostic for a malformed version
(`except ValueError`) and for a non-advancing version. -/
inductive VErr
  | invalidVersion
  | versionNotAdvanced
deriving DecidableEq, Repr

/-- `validate_version(new_version, old_version)`: parse both strings after
`lstrip('v')` (a `ValueError` is the `invalidVersion` outcome), then fail
with `versionNotAdvanced` unless `new_v > old_v`; on success report whether
the pre-release warning was printed. -/
def validate_version (newVersion oldVersion : String) :
    Except VErr Bool :=
  match parseVersion (lstripV newVersion), parseVersion (lstripV oldVersion) with
  | some newV, some oldV =>
    match SemVer.compareV newV oldV with
    | .gt => .ok newV.prerelease.isSome
    | _ => .error .versionNotAdvanced
  | _, _ => .error .invalidVersion

/-- Observable calls of one run. -/
inductive Event
  | getLatestRelease
  | versionCheck
  | metadataCheck
  | lintCall
  | createPrCall
  | mergePrCall
  | publishReleaseCall (tag : String) (pre : Bool)
deriving DecidableEq, Repr

/-- Is this event a `publish_release` (GitHub release creation) call? -/
def Event.isPublish : Event → Bool
  | .publishReleaseCall _ _ => true
  | _ => false

/-- How one invocation of a script function ends. -/
inductive ProcResult (α : Type)
  | ok (a : α)
  | exited (code : Nat)
  | uncaught
deriving DecidableEq, Repr

/-- Process exit code: normal completion of `main` exits 0, `sys.exit(n)`
exits `n`, an uncaught exception makes the interpreter exit 1. -/
def exitCode : ProcResult Unit → Nat
  | .ok _ => 0
  | .exited n => n
  | .uncaught => 1

/-- Sequencing of traced steps: later steps run only when the earlier one
returned normally. -/
def pstep {α β : Type} :
    List Event × ProcResult α → (α → List Event × ProcResult β) →
    List Event × ProcResult β
  | (t, .ok a), f => (t ++ (f a).1, (f a).2)
  | (t, .exited n), _ => (t, .exited n)
  | (t, .uncaught), _ => (t, .uncaught)

/-- Environment variables read by the script (the handlers read them as
`os.getenv`, `None` when unset; Python truthiness treats `None` and the empty
string alike). -/
structure Env where
  github_event_name : Option String
  github_ref : Option String
  pr_version : Option String
  main_version : Option String
  pr_number : Option String

/-- The external world one run observes: the filesystem, the linter
subprocess and the forge's HTTP responses. -/
structure World where
  libraryPropertiesExists : Bool
  lintOk : Bool
  latestReleaseStatus : Nat
  latestReleaseTag : String
  createPrStatus : Nat
  createPrText : String
  createPrNumber : String
  mergePrStatus : Nat
  createReleaseStatus : Nat

/-- `validate_library_metadata()`: `Path("library.properties").exists()` or
`sys.exit(1)`. -/
def validate_library_metadata (w : World) : List Event × ProcResult Unit :=
  ([.metadataCheck],
    if w.libraryPropertiesExists then .ok () else .exited 1)

/-- `validate_code_style()`: run `arduino-lint` with `check=True`;
a nonzero linter exit raises `CalledProcessError`, caught and turned into
`sys.exit(1)`. -/
def validate_code_style (w : World) : List Event × ProcResult Unit :=
  ([.lintCall],
    if w.lintOk then .ok () else .exited 1)

/-- The call of `validate_version` inside a handler: any typed failure is a
printed diagnostic followed by `sys.exit(1)`. -/
def validate_version_step (newVersion oldVersion : String) :
    List Event × ProcResult Unit :=
  ([.versionCheck],
    match validate_version newVersion oldVersion with
    | .ok _ => .ok ()
    | .error _ => .exited 1)

/-- Lines 145-147 and 166-168: the three validation calls a handler makes,
in source order. -/
def run_validations (newVersion oldVersion : String) (w : World) :
    List Event × ProcResult Unit :=
  pstep (validate_version_step newVersion oldVersion) fun _ =>
  pstep (validate_library_metadata w) fun _ =>
  validate_code_style w

/-- `get_latest_release_version()`: 404 answers the sentinel `"0.0.0"`;
`raise_for_status()` raises an uncaught `HTTPError` on any other 4xx/5xx
status; otherwise the response's `tag_name` is returned. -/
def get_latest_release_version (w : World) : List Event × ProcResult String :=
  ([.getLatestRelease],
    if w.latestReleaseStatus = 404 then .ok "0.0.0"
    else if 400 ≤ w.latestReleaseStatus ∧ w.latestReleaseStatus < 600 then
      .uncaught
    else .ok w.latestReleaseTag)

/-- The duplicate-PR marker `create_pr` looks for in the response body. -/
def prExistsMsg : String := "A pull request already exists"

/-- `create_pr(new_version)`: 201 answers the new PR number; otherwise the
script prints the error and exits - with code 0 when the body reports that a
pull request already exists, with code 1 otherwise. -/
def create_pr (w : World) : List Event × ProcResult String :=
  ([.createPrCall],
    if w.createPrStatus = 201 then .ok w.createPrNumber
    else if strContains w.createPrText prExistsMsg then .exited 0
    else .exited 1)

/-- `merge_pr(pr_number)`: 200 is success, anything else `sys.exit(1)`. -/
def merge_pr (w : World) : List Event × ProcResult Unit :=
  ([.mergePrCall],
    if w.mergePrStatus = 200 then .ok () else .exited 1)

/-- `create_release(version)`: the tag is `"v" + version.lstrip('v')`; the
payload's prerelease flag re-parses the version (an invalid version raises an
uncaught `ValueError` before any HTTP call); 201 is success, anything else
`sys.exit(1)`. -/
def create_release (version : String) (w : World) :
    List Event × ProcResult Unit :=
  match parseVersion (lstripV version) with
  | none => ([], .uncaught)
  | some v =>
    ([.publishReleaseCall ("v" ++ lstripV version) v.prerelease.isSome],
      if w.createReleaseStatus = 201 then .ok () else .exited 1)

/-- `handle_pull_request()`: require the three env parameters truthy, run the
validations, then merge the PR and publish the release. -/
def handle_pull_request (env : Env) (w : World) :
    List Event × ProcResult Unit :=
  match env.pr_version, env.main_version, env.pr_number with
  | some prVersion, some mainVersion, some prNumber =>
    if prVersion.isEmpty || mainVersion.isEmpty || prNumber.isEmpty then
      ([], .exited 1)
    else
      pstep (run_validations prVersion mainVersion w) fun _ =>
      pstep (merge_pr w) fun _ =>
      create_release prVersion w
  | _, _, _ => ([], .exited 1)

/-- `handle_tag_push()`: a push whose ref is not a tag ref returns without
doing anything; otherwise fetch the baseline, run the validations, open the
PR, merge it and publish the release for the pushed tag. -/
def handle_tag_push (env : Env) (w : World) : List Event × ProcResult Unit :=
  match env.github_ref with
  | none => ([], .ok ())
  | some ref =>
    if ref.isEmpty || !strStartsWith ref "refs/tags/" then ([], .ok ())
    else
      pstep (get_latest_release_version w) fun latestVersion =>
      pstep (run_validations (strReplace ref "refs/tags/" "") latestVersion w)
        fun _ =>
      pstep (create_pr w) fun _ =>
      pstep (merge_pr w) fun _ =>
      create_release (strReplace ref "refs/tags/" "") w

/-- `main()`: dispatch on the event name; any unsupported event is a logged
warning and a normal (exit 0) return. -/
def main (env : Env) (w : World) : List Event × ProcResult Unit :=
  if env.github_event_name = some "pull_request" then
    handle_pull_request env w
  else if env.github_event_name = some "push" then
    handle_tag_push env w
  else ([], .ok ())

/-! ## Concrete runs used by witnesses and counterexamples -/

/-- A pull-request trigger with candidate `2.0.0` against baseline `1.9.0`. -/
def envPr : Env := ⟨some "pull_request", none, some "2.0.0", some "1.9.0", some "5"⟩

/-- A push trigger for the tag `v0.1.0`. -/
def envTag : Env := ⟨some "push", some "refs/tags/v0.1.0", none, none, none⟩

/-- A push trigger for a branch ref. -/
def envHead : Env := ⟨some "push", some "refs/heads/main", none, none, none⟩

/-- Everything succeeds: metadata present, linter clean, forge cooperative. -/
def wAllOk : World := ⟨true, true, 200, "v1.9.0", 201, "", "7", 200, 201⟩

/-- A repository without releases: the latest-release query answers 404. -/
def wTag404 : World := ⟨true, true, 404, "", 201, "", "7", 200, 201⟩

/-- PR creation answers 422 with a duplicate-PR body. -/
def wDupPr : World :=
  ⟨true, true, 404, "", 422,
    "Validation Failed: A pull request already exists for s:t.", "7", 200, 201⟩

/-- PR creation answers 422 with an unrelated error body. -/
def wPrFail : World :=
  ⟨true, true, 404, "", 422, "Validation Failed: base invalid.", "7", 200, 201⟩

/-- The merge request is refused with a 405. -/
def wMergeFail : World := ⟨true, true, 200, "v1.9.0", 201, "", "7", 405, 201⟩

/-- The metadata file is absent. -/
def wNoMeta : World := ⟨false, true, 200, "v1.9.0", 201, "", "7", 200, 201⟩

/-- The latest-release query answers a server error. -/
def w500 : World := ⟨true, true, 500, "", 201, "", "7", 200, 201⟩

/-- Every forge mutation fails: 500 on the release query, 422 on PR
creation, 405 on merge, 500 on release creation. -/
def wAllFail : World :=
  ⟨true, true, 500, "", 422, "Validation Failed: base invalid.", "7", 405, 500⟩

/-! ## Helper lemmas -/

/-- Inversion of a successful version check: both strings parse after the
strip and the candidate strictly precedes-exceeds the baseline. -/
theorem validate_version_ok_inv (a b : String) (wn : Bool)
    (h : validate_version a b = .ok wn) :
    ∃ va vb, parseVersion (lstripV a) = some va
      ∧ parseVersion (lstripV b) = some vb
      ∧ SemVer.compareV va vb = .gt
      ∧ wn = va.prerelease.isSome := by
  unfold validate_version at h
  cases hpa : parseVersion (lstripV a) with
  | none =>
    rw [hpa] at h
    cases hpb : parseVersion (lstripV b) <;> rw [hpb] at h <;> exact absurd h (by simp)
  | some va =>
    rw [hpa] at h
    cases hpb : parseVersion (lstripV b) with
    | none => rw [hpb] at h; exact absurd h (by simp)
    | some vb =>
      rw [hpb] at h
      refine ⟨va, vb, rfl, rfl, ?_, ?_⟩ <;>
        cases hc : SemVer.compareV va vb <;> simp_all [hc]

/-- The validation pipeline after a failed version check: the version step is
the only one run. -/
theorem run_validations_of_error (a b : String) (w : World) (e : VErr)
    (h : validate_version a b = .error e) :
    run_validations a b w = ([Event.versionCheck], .exited 1) := by
  simp [run_validations, validate_version_step, pstep, h]

/-- The validation pipeline when the version check passes, by the state of
the metadata file and the linter. -/
theorem run_validations_of_ok (a b : String) (w : World) (wn : Bool)
    (h : validate_version a b = .ok wn) :
    run_validations a b w =
      (if w.libraryPropertiesExists then
        ([Event.versionCheck, Event.metadataCheck, Event.lintCall],
          if w.lintOk then .ok () else .exited 1)
      else ([Event.versionCheck, Event.metadataCheck], .exited 1)) := by
  cases hm : w.libraryPropertiesExists <;> cases hl : w.lintOk <;>
    simp [run_validations, validate_version_step, validate_library_metadata,
      validate_code_style, pstep, h, hm, hl]

/-- `takeWhile` finds nothing at the start of the matching `dropWhile`. -/
theorem takeWhile_dropWhile_self {α : Type} (p : α → Bool) (l : List α) :
    (l.dropWhile p).takeWhile p = [] := by
  induction l with
  | nil => rfl
  | cons a l ih =>
    cases hp : p a <;> simp [List.dropWhile_cons, List.takeWhile_cons, hp, ih]

/-- The latest-release query either returns some baseline string or raises
an uncaught exception, always after exactly its one call. -/
theorem get_latest_cases (w : World) :
    (∃ latest,
        get_latest_release_version w = ([.getLatestRelease], .ok latest))
    ∨ get_latest_release_version w = ([.getLatestRelease], .uncaught) := by
  unfold get_latest_release_version
  by_cases h404 : w.latestReleaseStatus = 404
  · exact Or.inl ⟨"0.0.0", by simp [h404]⟩
  · by_cases hr : 400 ≤ w.latestReleaseStatus ∧ w.latestReleaseStatus < 600
    · exact Or.inr (by simp [h404, hr])
    · exact Or.inl ⟨w.latestReleaseTag, by simp [h404, hr]⟩

/-- Shape of a pull-request run whose validations all pass: the three checks
followed by the merge-and-publish tail. -/
theorem handle_pull_request_shape (env : Env) (w : World)
    (prV mainV prNum : String) (wn : Bool)
    (h1 : env.pr_version = some prV)
    (h2 : env.main_version = some mainV)
    (h3 : env.pr_number = some prNum)
    (hE : (prV.isEmpty || mainV.isEmpty || prNum.isEmpty) = false)
    (hv : validate_version prV mainV = .ok wn)
    (hm : w.libraryPropertiesExists = true)
    (hl : w.lintOk = true) :
    handle_pull_request env w =
      ([Event.versionCheck, Event.metadataCheck, Event.lintCall]
          ++ (pstep (merge_pr w) fun _ => create_release prV w).1,
        (pstep (merge_pr w) fun _ => create_release prV w).2) := by
  unfold handle_pull_request
  rw [h1, h2, h3]
  simp only [if_neg
    (show ¬(prV.isEmpty || mainV.isEmpty || prNum.isEmpty) = true by
      simp [hE])]
  rw [run_validations_of_ok _ _ _ _ hv, hm, hl]
  simp [pstep]

/-- A pull-request run in which the merge call happens has all parameters
present and every validation passing. -/
theorem handle_pull_request_reach_inv (env : Env) (w : World)
    (h : Event.mergePrCall ∈ (handle_pull_request env w).1) :
    ∃ prV mainV prNum wn,
      env.pr_version = some prV
      ∧ env.main_version = some mainV
      ∧ env.pr_number = some prNum
      ∧ (prV.isEmpty || mainV.isEmpty || prNum.isEmpty) = false
      ∧ validate_version prV mainV = .ok wn
      ∧ w.libraryPropertiesExists = true
      ∧ w.lintOk = true := by
  unfold handle_pull_request at h
  cases hpv : env.pr_version with
  | none => rw [hpv] at h; simp at h
  | some prV =>
  cases hmv : env.main_version with
  | none => rw [hpv, hmv] at h; simp at h
  | some mainV =>
  cases hpn : env.pr_number with
  | none => rw [hpv, hmv, hpn] at h; simp at h
  | some prNum =>
  rw [hpv, hmv, hpn] at h
  by_cases hE : (prV.isEmpty || mainV.isEmpty || prNum.isEmpty) = true
  · simp [hE] at h
  · simp only [if_neg hE] at h
    cases hv : validate_version prV mainV with
    | error e =>
      rw [run_validations_of_error _ _ _ _ hv] at h
      simp [pstep] at h
    | ok wn =>
      rw [run_validations_of_ok _ _ _ _ hv] at h
      cases hm : w.libraryPropertiesExists with
      | false => rw [hm] at h; simp [pstep] at h
      | true =>
        cases hl : w.lintOk with
        | false => rw [hm, hl] at h; simp [pstep] at h
        | true =>
          exact ⟨prV, mainV, prNum, wn, rfl, rfl, rfl,
            Bool.of_not_eq_true hE, hv, rfl, rfl⟩

/-- Shape of a tag-push run whose validations all pass: baseline fetch and
the three checks, followed by the PR-creation, merge and publish tail. -/
theorem handle_tag_push_shape (env : Env) (w : World) (ref latest : String)
    (wn : Bool)
    (h1 : env.github_ref = some ref)
    (hE : (ref.isEmpty || !strStartsWith ref "refs/tags/") = false)
    (hg : get_latest_release_version w = ([.getLatestRelease], .ok latest))
    (hv : validate_version (strReplace ref "refs/tags/" "") latest = .ok wn)
    (hm : w.libraryPropertiesExists = true)
    (hl : w.lintOk = true) :
    handle_tag_push env w =
      ([Event.getLatestRelease, Event.versionCheck, Event.metadataCheck,
          Event.lintCall]
          ++ (pstep (create_pr w) fun _ =>
              pstep (merge_pr w) fun _ =>
              create_release (strReplace ref "refs/tags/" "") w).1,
        (pstep (create_pr w) fun _ =>
            pstep (merge_pr w) fun _ =>
            create_release (strReplace ref "refs/tags/" "") w).2) := by
  unfold handle_tag_push
  rw [h1]
  simp only [if_neg
    (show ¬(ref.isEmpty || !strStartsWith ref "refs/tags/") = true by
      simp [hE])]
  rw [hg]
  simp only [pstep]
  rw [run_validations_of_ok _ _ _ _ hv, hm, hl]
  simp [pstep]

/-- A tag-push run in which the PR-creation call (or anything after it)
happens has a tag ref, a successfully fetched baseline and every validation
passing. -/
theorem handle_tag_push_reach_inv (env : Env) (w : World)
    (h : Event.createPrCall ∈ (handle_tag_push env w).1
      ∨ Event.mergePrCall ∈ (handle_tag_push env w).1) :
    ∃ ref latest wn,
      env.github_ref = some ref
      ∧ (ref.isEmpty || !strStartsWith ref "refs/tags/") = false
      ∧ get_latest_release_version w = ([.getLatestRelease], .ok latest)
      ∧ validate_version (strReplace ref "refs/tags/" "") latest = .ok wn
      ∧ w.libraryPropertiesExists = true
      ∧ w.lintOk = true := by
  unfold handle_tag_push at h
  cases hr : env.github_ref with
  | none => rw [hr] at h; simp at h
  | some ref =>
  rw [hr] at h
  by_cases hE : (ref.isEmpty || !strStartsWith ref "refs/tags/") = true
  · simp [hE] at h
  · simp only [if_neg hE] at h
    rcases get_latest_cases w with ⟨latest, hg⟩ | hg
    · rw [hg] at h
      simp only [pstep] at h
      cases hv : validate_version (strReplace ref "refs/tags/" "") latest with
      | error e =>
        rw [run_validations_of_error _ _ _ _ hv] at h
        simp [pstep] at h
      | ok wn =>
        rw [run_validations_of_ok _ _ _ _ hv] at h
        cases hm : w.libraryPropertiesExists with
        | false => rw [hm] at h; simp [pstep] at h
        | true =>
          cases hl : w.lintOk with
          | false => rw [hm, hl] at h; simp [pstep] at h
          | true =>
            exact ⟨ref, latest, wn, rfl, Bool.of_not_eq_true hE, hg, hv, rfl, rfl⟩
    · rw [hg] at h
      simp [pstep] at h

/-! ## Claims -/

/-- **C1.** For every pair of valid semantic-version strings, the version
check succeeds iff the candidate strictly exceeds the baseline under semver
precedence; otherwise it fails with `versionNotAdvanced` and the validation
pipeline stops at the version step with a non-zero abort. -/
theorem validate_version_gt_gate (a b : String) (va vb : SemVer)
    (ha : parseVersion (lstripV a) = some va)
    (hb : parseVersion (lstripV b) = some vb) :
    ((∃ wn, validate_version a b = .ok wn) ↔ SemVer.compareV va vb = .gt)
    ∧ (SemVer.compareV va vb ≠ .gt →
        validate_version a b = .error .versionNotAdvanced
        ∧ ∀ w : World,
            run_validations a b w = ([Event.versionCheck], .exited 1)) := by
  have hv : validate_version a b =
      (match SemVer.compareV va vb with
        | .gt => .ok va.prerelease.isSome
        | _ => .error .versionNotAdvanced) := by
    unfold validate_version
    rw [ha, hb]
  constructor
  · constructor
    · rintro ⟨wn, hwn⟩
      rw [hv] at hwn
      cases hc : SemVer.compareV va vb with
      | lt => simp [hc] at hwn
      | eq => simp [hc] at hwn
      | gt => rfl
    · intro hc
      exact ⟨va.prerelease.isSome, by rw [hv, hc]⟩
  · intro hne
    have he : validate_version a b = .error .versionNotAdvanced := by
      rw [hv]
      cases hc : SemVer.compareV va vb <;> simp_all
    exact ⟨he, fun w => run_validations_of_error a b w _ he⟩

/-- Witness for C1 at the spec's example pair `(1.1.0, 1.1.0)`. -/
theorem validate_version_gt_gate_witness :
    ((∃ wn, validate_version "1.1.0" "1.1.0" = .ok wn)
        ↔ SemVer.compareV ⟨1, 1, 0, none, none⟩ ⟨1, 1, 0, none, none⟩ = .gt)
    ∧ (SemVer.compareV ⟨1, 1, 0, none, none⟩ ⟨1, 1, 0, none, none⟩ ≠ .gt →
        validate_version "1.1.0" "1.1.0" = .error .versionNotAdvanced
        ∧ ∀ w : World,
            run_validations "1.1.0" "1.1.0" w
              = ([Event.versionCheck], .exited 1)) :=
  validate_version_gt_gate "1.1.0" "1.1.0" ⟨1, 1, 0, none, none⟩
    ⟨1, 1, 0, none, none⟩ (by decide) (by decide)

/-- **C4 counterexample.** A repository's first tag does not always satisfy
the candidate > baseline gate: the tag `v0.0.0` fails it against the
sentinel baseline `0.0.0`. -/
theorem latest_release_gate_counterexample :
    validate_version "v0.0.0" "0.0.0" = .error .versionNotAdvanced := by decide

/-- **C4 (amended).** `get_latest_release_version` answers the sentinel
`"0.0.0"` on a 404 and the response's `tag_name` on a success status, and a
first tag whose version strictly exceeds `0.0.0` passes the gate. -/
theorem latest_release_sentinel (w w' : World) (t : String) (vt : SemVer)
    (h404 : w.latestReleaseStatus = 404)
    (hok : w'.latestReleaseStatus < 400)
    (ht : parseVersion (lstripV t) = some vt)
    (hgt : SemVer.compareV vt ⟨0, 0, 0, none, none⟩ = .gt) :
    get_latest_release_version w = ([.getLatestRelease], .ok "0.0.0")
    ∧ get_latest_release_version w'
        = ([.getLatestRelease], .ok w'.latestReleaseTag)
    ∧ validate_version t "0.0.0" = .ok vt.prerelease.isSome := by
  refine ⟨?_, ?_, ?_⟩
  · simp [get_latest_release_version, h404]
  · have h1 : ¬w'.latestReleaseStatus = 404 := by omega
    have h2 : ¬(400 ≤ w'.latestReleaseStatus ∧ w'.latestReleaseStatus < 600) := by
      omega
    simp [get_latest_release_version, h1, h2]
  · have h0 : parseVersion (lstripV "0.0.0") = some ⟨0, 0, 0, none, none⟩ := by
      decide
    simp [validate_version, ht, h0, hgt]

/-- Witness for the amended C4: a 404 world, a 200 world and first tag
`v0.1.0`. -/
theorem latest_release_sentinel_witness :
    get_latest_release_version wTag404 = ([.getLatestRelease], .ok "0.0.0")
    ∧ get_latest_release_version wAllOk
        = ([.getLatestRelease], .ok wAllOk.latestReleaseTag)
    ∧ validate_version "v0.1.0" "0.0.0"
        = .ok (SemVer.prerelease ⟨0, 1, 0, none, none⟩).isSome :=
  latest_release_sentinel wTag404 wAllOk "v0.1.0" ⟨0, 1, 0, none, none⟩
    (by decide) (by decide) (by decide) (by decide)

/-- Modelled from the claim's wording for C5: strip at most one leading
`v`. -/
def specStripOneLeadingV (s : String) : String :=
  if strStartsWith s "v" then ⟨s.toList.drop 1⟩ else s

/-- **C5 counterexample.** `"vv1.2.3"` is not a valid semantic version after
stripping a single leading `v`, yet the version check accepts it (the script
strips every leading `v` with `lstrip('v')`) instead of failing with
`invalidVersion`. -/
theorem invalid_version_counterexample :
    parseVersion (specStripOneLeadingV "vv1.2.3") = none
    ∧ validate_version "vv1.2.3" "1.0.0" = .ok false := by decide

/-- **C5 (amended).** For every pair where either string is not a valid
semantic version after removing every leading `v`, the version check fails
with the typed `invalidVersion` outcome, which the pipeline turns into a
plain `sys.exit(1)` - no parse exception escapes. -/
theorem invalid_version_rejected (a b : String)
    (h : parseVersion (lstripV a) = none ∨ parseVersion (lstripV b) = none) :
    validate_version a b = .error .invalidVersion
    ∧ (validate_version_step a b).2 = .exited 1 := by
  have hv : validate_version a b = .error .invalidVersion := by
    unfold validate_version
    rcases h with h | h
    · rw [h]
    · rw [h]
      cases parseVersion (lstripV a) <;> rfl
  exact ⟨hv, by simp [validate_version_step, hv]⟩

/-- Witness for the amended C5 at the spec's example `"not-a-version"`. -/
theorem invalid_version_rejected_witness :
    validate_version "not-a-version" "1.0.0" = .error .invalidVersion
    ∧ (validate_version_step "not-a-version" "1.0.0").2 = .exited 1 :=
  invalid_version_rejected "not-a-version" "1.0.0" (Or.inl (by decide))

/-- **C6.** A pre-release candidate that strictly exceeds the baseline passes
the version check with the warning emitted, not a failure, and the validation
pipeline behaves exactly as for a non-prerelease candidate. -/
theorem prerelease_warns_not_fails (a b c : String) (va vb vc : SemVer)
    (w : World)
    (ha : parseVersion (lstripV a) = some va)
    (hapre : va.prerelease.isSome = true)
    (hb : parseVersion (lstripV b) = some vb)
    (hgt : SemVer.compareV va vb = .gt)
    (hc : parseVersion (lstripV c) = some vc)
    (hcpre : vc.prerelease = none)
    (hcgt : SemVer.compareV vc vb = .gt) :
    validate_version a b = .ok true
    ∧ run_validations a b w = run_validations c b w := by
  have hva : validate_version a b = .ok true := by
    simp [validate_version, ha, hb, hgt, hapre]
  have hvc : validate_version c b = .ok false := by
    simp [validate_version, hc, hb, hcgt, hcpre]
  refine ⟨hva, ?_⟩
  rw [run_validations_of_ok a b w true hva,
    run_validations_of_ok c b w false hvc]

/-- Witness for C6 at the spec's example `1.3.0-rc.1` against `1.2.0`. -/
theorem prerelease_warns_not_fails_witness :
    validate_version "1.3.0-rc.1" "1.2.0" = .ok true
    ∧ run_validations "1.3.0-rc.1" "1.2.0" wAllOk
        = run_validations "1.3.0" "1.2.0" wAllOk :=
  prerelease_warns_not_fails "1.3.0-rc.1" "1.2.0" "1.3.0"
    ⟨1, 3, 0, some [['r', 'c'], ['1']], none⟩ ⟨1, 2, 0, none, none⟩
    ⟨1, 3, 0, none, none⟩ wAllOk (by decide) (by decide) (by decide)
    (by decide) (by decide) (by decide) (by decide)

/-- **C9 counterexample.** An HTTP failure of the latest-release query is not
translated into a typed, controlled abort: a 500 response makes
`raise_for_status` raise an uncaught exception, which propagates through the
whole tag-push orchestration. -/
theorem forge_uncaught_counterexample :
    (get_latest_release_version w500).2 = .uncaught
    ∧ (handle_tag_push envTag w500).2 = .uncaught := by decide

/-- **C9 (amended).** The three mutating forge operations translate
non-success HTTP statuses into a printed diagnostic and a controlled
`sys.exit`; the latest-release query translates only 404 (into the sentinel)
and propagates an uncaught `HTTPError` on any other 4xx/5xx status. -/
theorem forge_error_translation (w : World) (version : String) (v : SemVer)
    (hpr : w.createPrStatus ≠ 201)
    (hmg : w.mergePrStatus ≠ 200)
    (hrl : w.createReleaseStatus ≠ 201)
    (hv : parseVersion (lstripV version) = some v)
    (hst : 400 ≤ w.latestReleaseStatus ∧ w.latestReleaseStatus < 600)
    (hne : w.latestReleaseStatus ≠ 404) :
    (∃ n, (create_pr w).2 = .exited n)
    ∧ (merge_pr w).2 = .exited 1
    ∧ (create_release version w).2 = .exited 1
    ∧ (get_latest_release_version w).2 = .uncaught := by
  refine ⟨?_, ?_, ?_, ?_⟩
  · by_cases hd : strContains w.createPrText prExistsMsg = true
    · exact ⟨0, by simp [create_pr, hpr, hd]⟩
    · exact ⟨1, by simp [create_pr, hpr, hd]⟩
  · simp [merge_pr, hmg]
  · simp [create_release, hv, hrl]
  · simp [get_latest_release_version, hne, hst]

/-- Witness for the amended C9: every forge call failing at once. -/
theorem forge_error_translation_witness :
    (∃ n, (create_pr wAllFail).2 = .exited n)
    ∧ (merge_pr wAllFail).2 = .exited 1
    ∧ (create_release "1.2.3" wAllFail).2 = .exited 1
    ∧ (get_latest_release_version wAllFail).2 = .uncaught :=
  forge_error_translation wAllFail "1.2.3" ⟨1, 2, 3, none, none⟩ (by decide)
    (by decide) (by decide) (by decide) (by decide) (by decide)

/-- **C10.** Every release the script publishes is tagged `v` followed by
the version with all leading `v` characters removed, so the published tag
carries exactly one leading `v`; in particular `"1.2.3"` and `"v1.2.3"`
publish the identical tag. -/
theorem release_tag_normalized (version : String) (w : World) (t : String)
    (p : Bool)
    (h : Event.publishReleaseCall t p ∈ (create_release version w).1) :
    t = "v" ++ lstripV version
    ∧ (t.toList.takeWhile fun c => c = 'v').length = 1 := by
  unfold create_release at h
  cases hv : parseVersion (lstripV version) with
  | none =>
    rw [hv] at h
    simp at h
  | some v =>
    rw [hv] at h
    simp at h
    obtain ⟨ht, -⟩ := h
    subst ht
    refine ⟨rfl, ?_⟩
    have hdata : (("v" : String) ++ lstripV version).toList
        = 'v' :: (version.toList.dropWhile fun c => c = 'v') := rfl
    rw [hdata]
    simp [List.takeWhile_cons, takeWhile_dropWhile_self]

/-- A pull-request run without the metadata file never reaches the
linter. -/
theorem lint_skip_pr (env : Env) (w : World)
    (hm : w.libraryPropertiesExists = false) :
    Event.lintCall ∉ (handle_pull_request env w).1 := by
  unfold handle_pull_request
  cases hpv : env.pr_version with
  | none => simp
  | some prV =>
  cases hmv : env.main_version with
  | none => simp
  | some mainV =>
  cases hpn : env.pr_number with
  | none => simp
  | some prNum =>
  by_cases hE : (prV.isEmpty || mainV.isEmpty || prNum.isEmpty) = true
  · simp [hE]
  · simp only [if_neg hE]
    cases hv : validate_version prV mainV with
    | error e =>
      rw [run_validations_of_error _ _ _ _ hv]
      simp [pstep]
    | ok wn =>
      rw [run_validations_of_ok _ _ _ _ hv, hm]
      simp [pstep]

/-- A tag-push run without the metadata file never reaches the linter. -/
theorem lint_skip_tag (env : Env) (w : World)
    (hm : w.libraryPropertiesExists = false) :
    Event.lintCall ∉ (handle_tag_push env w).1 := by
  unfold handle_tag_push
  cases hr : env.github_ref with
  | none => simp
  | some ref =>
  by_cases hE : (ref.isEmpty || !strStartsWith ref "refs/tags/") = true
  · simp [hE]
  · simp only [if_neg hE]
    rcases get_latest_cases w with ⟨latest, hg⟩ | hg
    · rw [hg]
      simp only [pstep]
      cases hv :
          validate_version (strReplace ref "refs/tags/" "") latest with
      | error e =>
        rw [run_validations_of_error _ _ _ _ hv]
        simp [pstep]
      | ok wn =>
        rw [run_validations_of_ok _ _ _ _ hv, hm]
        simp [pstep]
    · rw [hg]
      simp [pstep]

/-- **C2.** The validation pipeline runs version check, metadata check and
style check in that fixed order, stopping at the first hard failure; in
particular, in every run where the metadata file is absent, the linter is
never invoked. -/
theorem pipeline_order_short_circuit (a b : String) (w : World) (env : Env) :
    ((run_validations a b w).1 = [Event.versionCheck]
      ∨ (run_validations a b w).1 = [Event.versionCheck, Event.metadataCheck]
      ∨ (run_validations a b w).1
          = [Event.versionCheck, Event.metadataCheck, Event.lintCall])
    ∧ ((run_validations a b w).2 = .ok () →
        (run_validations a b w).1
          = [Event.versionCheck, Event.metadataCheck, Event.lintCall])
    ∧ (w.libraryPropertiesExists = false →
        Event.lintCall ∉ (main env w).1) := by
  refine ⟨?_, ?_, ?_⟩
  · cases hv : validate_version a b with
    | error e => rw [run_validations_of_error a b w e hv]; simp
    | ok wn =>
      rw [run_validations_of_ok a b w wn hv]
      cases hmeta : w.libraryPropertiesExists <;> simp
  · cases hv : validate_version a b with
    | error e => rw [run_validations_of_error a b w e hv]; simp
    | ok wn =>
      rw [run_validations_of_ok a b w wn hv]
      cases hmeta : w.libraryPropertiesExists <;>
        cases hlint : w.lintOk <;> simp
  · intro hm
    by_cases hev : env.github_event_name = some "pull_request"
    · simp only [main, if_pos hev]
      exact lint_skip_pr env w hm
    · by_cases hev2 : env.github_event_name = some "push"
      · simp only [main, if_neg hev, if_pos hev2]
        exact lint_skip_tag env w hm
      · simp [main, hev, hev2]

/-- Witness for C2: with the metadata file absent the pull-request run never
invokes the linter. -/
theorem pipeline_order_short_circuit_witness :
    Event.lintCall ∉ (main envPr wNoMeta).1 :=
  (pipeline_order_short_circuit "2.0.0" "1.9.0" wNoMeta envPr).2.2 rfl

/-- **C3.** In a tag-push run whose PR creation received a non-201 response:
when the body reports an already-existing PR the orchestrator stops with
exit code 0 and never calls merge or publish; any other non-201 response
aborts with exit code 1. -/
theorem duplicate_pr_clean_stop (env : Env) (w : World)
    (hev : env.github_event_name = some "push")
    (hreach : Event.createPrCall ∈ (main env w).1)
    (hstatus : w.createPrStatus ≠ 201) :
    (strContains w.createPrText prExistsMsg = true →
      (main env w).2 = .exited 0
      ∧ Event.mergePrCall ∉ (main env w).1
      ∧ ∀ t p, Event.publishReleaseCall t p ∉ (main env w).1)
    ∧ (strContains w.createPrText prExistsMsg = false →
      (main env w).2 = .exited 1) := by
  have hne : env.github_event_name ≠ some "pull_request" := by
    rw [hev]; decide
  have hmain : main env w = handle_tag_push env w := by
    simp [main, hne, hev]
  rw [hmain] at hreach ⊢
  obtain ⟨ref, latest, wn, h1, hE, hg, hv, hm, hl⟩ :=
    handle_tag_push_reach_inv env w (Or.inl hreach)
  rw [handle_tag_push_shape env w ref latest wn h1 hE hg hv hm hl]
  have hcp : create_pr w =
      ([Event.createPrCall],
        if strContains w.createPrText prExistsMsg then .exited 0
        else .exited 1) := by
    simp [create_pr, hstatus]
  rw [hcp]
  constructor
  · intro hdup
    simp [pstep, hdup]
  · intro hdup
    simp [pstep, hdup]

/-- Witness for C3: the duplicate-PR world stops with exit 0 and no
mutation, the unrelated-422 world exits 1. -/
theorem duplicate_pr_clean_stop_witness :
    ((strContains wDupPr.createPrText prExistsMsg = true →
      (main envTag wDupPr).2 = .exited 0
      ∧ Event.mergePrCall ∉ (main envTag wDupPr).1
      ∧ ∀ t p, Event.publishReleaseCall t p ∉ (main envTag wDupPr).1)
    ∧ (strContains wDupPr.createPrText prExistsMsg = false →
      (main envTag wDupPr).2 = .exited 1))
    ∧ ((strContains wPrFail.createPrText prExistsMsg = true →
      (main envTag wPrFail).2 = .exited 0
      ∧ Event.mergePrCall ∉ (main envTag wPrFail).1
      ∧ ∀ t p, Event.publishReleaseCall t p ∉ (main envTag wPrFail).1)
    ∧ (strContains wPrFail.createPrText prExistsMsg = false →
      (main envTag wPrFail).2 = .exited 1)) :=
  ⟨duplicate_pr_clean_stop envTag wDupPr (by decide) (by decide) (by decide),
   duplicate_pr_clean_stop envTag wPrFail (by decide) (by decide) (by decide)⟩

/-- **C7 counterexample.** A run can reach the mutation tail (all three
validations passed, merge invoked) and still publish nothing and abort:
when the merge request is refused, publish is called zero times - not
exactly once - and the run exits 1 instead of ending in the success
state. -/
theorem mutation_tail_counterexample :
    Event.mergePrCall ∈ (main envPr wMergeFail).1
    ∧ Event.lintCall ∈ (main envPr wMergeFail).1
    ∧ ((main envPr wMergeFail).1.filter Event.isPublish).length = 0
    ∧ (main envPr wMergeFail).2 = .exited 1 := by decide

/-- **C7 (amended).** On every run that reaches the mutation tail (the merge
call happens), merge is requested exactly once; publish is requested iff the
merge succeeded, and then exactly once and strictly after the merge; the run
ends in the terminal success state iff merge and publish both succeed, and a
merge failure aborts with exit 1 before any publish. -/
theorem mutation_tail_once_ordered (env : Env) (w : World)
    (hreach : Event.mergePrCall ∈ (main env w).1) :
    ∃ pre tag p,
      Event.mergePrCall ∉ pre
      ∧ (∀ e ∈ pre, e.isPublish = false)
      ∧ (w.mergePrStatus = 200 →
          (main env w).1
            = pre ++ [Event.mergePrCall, Event.publishReleaseCall tag p]
          ∧ (w.createReleaseStatus = 201 → (main env w).2 = .ok ())
          ∧ (w.createReleaseStatus ≠ 201 → (main env w).2 = .exited 1))
      ∧ (w.mergePrStatus ≠ 200 →
          (main env w).1 = pre ++ [Event.mergePrCall]
          ∧ (main env w).2 = .exited 1) := by
  by_cases hev : env.github_event_name = some "pull_request"
  · rw [show main env w = handle_pull_request env w by
      simp [main, hev]] at hreach ⊢
    obtain ⟨prV, mainV, prNum, wn, h1, h2, h3, hE, hv, hm, hl⟩ :=
      handle_pull_request_reach_inv env w hreach
    obtain ⟨va, vb, hpa, hpb, -, -⟩ := validate_version_ok_inv _ _ _ hv
    rw [handle_pull_request_shape env w prV mainV prNum wn h1 h2 h3 hE hv hm hl]
    refine ⟨[Event.versionCheck, Event.metadataCheck, Event.lintCall],
      "v" ++ lstripV prV, va.prerelease.isSome, by decide, by decide,
      ?_, ?_⟩
    · intro h200
      have hmp : merge_pr w = ([Event.mergePrCall], .ok ()) := by
        simp [merge_pr, h200]
      rw [hmp]
      refine ⟨?_, ?_, ?_⟩
      · simp [pstep, create_release, hpa]
      · intro hcr
        simp [pstep, create_release, hpa, hcr]
      · intro hcr
        simp [pstep, create_release, hpa, hcr]
    · intro h200
      have hmp : merge_pr w = ([Event.mergePrCall], .exited 1) := by
        simp [merge_pr, h200]
      rw [hmp]
      simp [pstep]
  · by_cases hev2 : env.github_event_name = some "push"
    · rw [show main env w = handle_tag_push env w by
        simp [main, hev, hev2]] at hreach ⊢
      obtain ⟨ref, latest, wn, h1, hE, hg, hv, hm, hl⟩ :=
        handle_tag_push_reach_inv env w (Or.inr hreach)
      obtain ⟨va, vb, hpa, hpb, -, -⟩ := validate_version_ok_inv _ _ _ hv
      rw [handle_tag_push_shape env w ref latest wn h1 hE hg hv hm hl] at hreach ⊢
      by_cases hpr : w.createPrStatus = 201
      · have hcp : create_pr w = ([Event.createPrCall], .ok w.createPrNumber) := by
          simp [create_pr, hpr]
        rw [hcp] at hreach ⊢
        refine ⟨[Event.getLatestRelease, Event.versionCheck,
          Event.metadataCheck, Event.lintCall, Event.createPrCall],
          "v" ++ lstripV (strReplace ref "refs/tags/" ""),
          va.prerelease.isSome, by decide, by decide, ?_, ?_⟩
        · intro h200
          have hmp : merge_pr w = ([Event.mergePrCall], .ok ()) := by
            simp [merge_pr, h200]
          rw [hmp]
          refine ⟨?_, ?_, ?_⟩
          · simp [pstep, create_release, hpa]
          · intro hcr
            simp [pstep, create_release, hpa, hcr]
          · intro hcr
            simp [pstep, create_release, hpa, hcr]
        · intro h200
          have hmp : merge_pr w = ([Event.mergePrCall], .exited 1) := by
            simp [merge_pr, h200]
          rw [hmp]
          simp [pstep]
      · exfalso
        have hcp : create_pr w =
            ([Event.createPrCall],
              if strContains w.createPrText prExistsMsg then .exited 0
              else .exited 1) := by
          simp [create_pr, hpr]
        rw [hcp] at hreach
        by_cases hdup : strContains w.createPrText prExistsMsg = true <;>
          simp [pstep, hdup] at hreach
    · rw [show main env w = ([], .ok ()) by simp [main, hev, hev2]] at hreach
      simp at hreach

/-- Witness for the amended C7: the all-success pull-request run. -/
theorem mutation_tail_once_ordered_witness :
    ∃ pre tag p,
      Event.mergePrCall ∉ pre
      ∧ (∀ e ∈ pre, e.isPublish = false)
      ∧ (wAllOk.mergePrStatus = 200 →
          (main envPr wAllOk).1
            = pre ++ [Event.mergePrCall, Event.publishReleaseCall tag p]
          ∧ (wAllOk.createReleaseStatus = 201 →
              (main envPr wAllOk).2 = .ok ())
          ∧ (wAllOk.createReleaseStatus ≠ 201 →
              (main envPr wAllOk).2 = .exited 1))
      ∧ (wAllOk.mergePrStatus ≠ 200 →
          (main envPr wAllOk).1 = pre ++ [Event.mergePrCall]
          ∧ (main envPr wAllOk).2 = .exited 1) :=
  mutation_tail_once_ordered envPr wAllOk (by decide)

/-- **C8.** A push whose ref is not a tag reference performs no validation
and no forge call: the run's trace is empty and the process exits 0. -/
theorem non_tag_push_noop (env : Env) (w : World)
    (hev : env.github_event_name = some "push")
    (href : ∀ r, env.github_ref = some r →
      strStartsWith r "refs/tags/" = false) :
    (main env w).1 = [] ∧ (main env w).2 = .ok ()
    ∧ exitCode (main env w).2 = 0 := by
  have hne : env.github_event_name ≠ some "pull_request" := by
    rw [hev]; decide
  have hmain : main env w = handle_tag_push env w := by
    simp [main, hne, hev]
  rw [hmain]
  cases hr : env.github_ref with
  | none => simp [handle_tag_push, hr, exitCode]
  | some r =>
    have hs : strStartsWith r "refs/tags/" = false := href r hr
    simp [handle_tag_push, hr, hs, exitCode]

/-- Witness for C8 at the spec's example ref `refs/heads/main`. -/
theorem non_tag_push_noop_witness :
    (main envHead wAllOk).1 = [] ∧ (main envHead wAllOk).2 = .ok ()
    ∧ exitCode (main envHead wAllOk).2 = 0 :=
  non_tag_push_noop envHead wAllOk (by decide) (fun r hr => by
    have : r = "refs/heads/main" := by
      have h := hr
      simp only [envHead] at h
      exact (Option.some.inj h).symm
    rw [this]
    decide)

/-- Witness for C10: `"1.2.3"` and `"v1.2.3"` both publish tag `v1.2.3`. -/
theorem release_tag_normalized_witness :
    ("v1.2.3" = "v" ++ lstripV "1.2.3"
      ∧ (("v1.2.3" : String).toList.takeWhile fun c => c = 'v').length = 1)
    ∧ ("v1.2.3" = "v" ++ lstripV "v1.2.3"
      ∧ (("v1.2.3" : String).toList.takeWhile fun c => c = 'v').length = 1) :=
  ⟨release_tag_normalized "1.2.3" wAllOk "v1.2.3" false (by decide),
   release_tag_normalized "v1.2.3" wAllOk "v1.2.3" false (by decide)⟩

end Action
